import Mathlib

/-!
Verification of the AgentBox project-tracker server (`server.js` variants).

The development shallowly embeds the tool handlers, the `/chat` agent loop
and the deployment health checker of the source, and proves the behavioural
claims about them.  External collaborators (the Supabase store, the network,
the completion API) are modelled as explicit state and explicit probe
outcomes, exactly as the handlers consume them.  JavaScript number
arithmetic that matters (the portfolio progress percentage) is embedded as
IEEE-754 binary64 arithmetic over exact rationals.
-/

namespace AgentBox

/-! ## Slug derivation (`add_deployment`)

Source:
```js
const slug = name
  .toLowerCase()
  .replace(/[^a-z0-9]+/g, '-')
  .replace(/^-|-$/g, '');
```
-/

/-- A character kept by the slug regex: `[a-z0-9]` after lowercasing. -/
def isSlugKeep (c : Char) : Bool :=
  (('a' ≤ c && c ≤ 'z') || ('0' ≤ c && c ≤ '9'))

/-- Global replacement of `/[^a-z0-9]+/g` by `'-'`: every maximal run of
non-kept characters becomes a single hyphen.  A non-kept character followed
by another non-kept character is inside a run and emits nothing; the last
character of a run emits the single hyphen. -/
def collapseRuns : List Char → List Char
  | [] => []
  | [c] => if isSlugKeep c then [c] else ['-']
  | c :: d :: rest =>
    if isSlugKeep c then c :: collapseRuns (d :: rest)
    else if isSlugKeep d then '-' :: collapseRuns (d :: rest)
    else collapseRuns (d :: rest)

/-- Remove one leading hyphen, when present. -/
def dropLeadingHyphen : List Char → List Char
  | [] => []
  | c :: rest => if c = '-' then rest else c :: rest

/-- The `replace(/^-|-$/g, '')` step: the global anchored regex removes one
leading hyphen (the `^-` alternative) and one trailing hyphen (`-$`). -/
def trimJs (l : List Char) : List Char :=
  (dropLeadingHyphen (dropLeadingHyphen l).reverse).reverse

/-- Slug derivation of `add_deployment`, from the source. -/
def slugify (name : String) : String :=
  String.mk (trimJs (collapseRuns (name.toList.map Char.toLower)))

/-- Slug derivation as the spec words it: lowercase, collapse every maximal
run of non-alphanumerics to one hyphen, then trim *all* leading and trailing
hyphens.  Stated only to be compared with `slugify`. -/
def slugifySpec (name : String) : String :=
  String.mk
    ((((collapseRuns (name.toList.map Char.toLower)).dropWhile
        (fun c => c = '-')).reverse.dropWhile (fun c => c = '-')).reverse)

/-! ## The relational store

The Supabase store is external; the handlers see it as a bag of rows per
table.  Rows carry the columns the embedded handlers read or write.
Generated ids are modelled by a `nextId` counter standing for
`gen_random_uuid()`. -/

/-- A `companies` row. -/
structure Company where
  id : Nat
  slug : String
  name : String
  description : Option String := none
  status : String := "discovery"
  updated_at : Option String := none
  deriving Repr, DecidableEq

/-- A `milestones` row. -/
structure Milestone where
  id : Nat
  company_id : Nat
  title : String
  status : String := "pending"
  order_index : Int := 0
  due_date : Option String := none
  completed_at : Option String := none
  notes : Option String := none
  updated_at : Option String := none
  deriving Repr, DecidableEq

/-- A `dev_tasks` row. -/
structure DevTask where
  id : Nat
  title : String
  description : Option String := none
  assigned_to : Option String := none
  priority : String := "medium"
  status : String := "todo"
  due_date : Option String := none
  completed_at : Option String := none
  updated_at : Option String := none
  deriving Repr, DecidableEq

/-- The slice of the store these handlers touch. -/
structure Store where
  nextId : Nat := 0
  companies : List Company := []
  milestones : List Milestone := []
  devTasks : List DevTask := []
  deriving Repr, DecidableEq

/-- `.from('companies').select('id').eq('slug', slug).single()`: the row
with the given slug (`slug` is UNIQUE, so first match). -/
def findCompany (s : Store) (slug : String) : Option Company :=
  s.companies.find? (fun c => c.slug = slug)

/-! ## Company and milestone handlers -/

/-- Result shape of `update_company_status`. -/
structure UpdateCompanyResult where
  success : Bool
  company : Option Company
  deriving Repr, DecidableEq

/-- `update_company_status({slug, status})`, from the source: a direct
`update ... eq('slug', slug) ... select()` with **no** prior lookup; the
returned `company` is `data[0]` of the updated rows (absent when no row
matched). -/
def update_company_status (now slug status : String) (s : Store) :
    Store × UpdateCompanyResult :=
  let upd := fun (c : Company) =>
    if c.slug = slug then { c with status := status, updated_at := some now } else c
  let s' := { s with companies := s.companies.map upd }
  let returned := (s.companies.filter (fun c => c.slug = slug)).map upd
  (s', { success := true, company := returned.head? })

/-- Result shape of the milestone-returning handlers. -/
structure MilestoneResult where
  success : Bool
  milestone : Option Milestone
  deriving Repr, DecidableEq

/-- `add_milestone({slug, title, due_date})`, from the source: resolve the
company by slug, throw `Company not found: <slug>` when absent; otherwise
compute the next `order_index` as (max existing) + 1, or 0 on none, and
insert the milestone. -/
def add_milestone (slug title : String) (due_date : Option String)
    (s : Store) : Except String (Store × MilestoneResult) :=
  match findCompany s slug with
  | none => .error ("Company not found: " ++ slug)
  | some company =>
    let existing := s.milestones.filter (fun m => m.company_id = company.id)
    let order_index : Int :=
      match (existing.map (fun m => m.order_index)).max? with
      | some mx => mx + 1
      | none => 0
    let row : Milestone :=
      { id := s.nextId, company_id := company.id, title := title,
        due_date := due_date, order_index := order_index }
    let s' := { s with nextId := s.nextId + 1, milestones := s.milestones ++ [row] }
    .ok (s', { success := true, milestone := some row })

/-- `list_milestones({slug})`, from the source: resolve the company by slug,
throw `Company not found: <slug>` when absent; otherwise the company's
milestones ordered by `order_index`. -/
def list_milestones (slug : String) (s : Store) :
    Except String (List Milestone) :=
  match findCompany s slug with
  | none => .error ("Company not found: " ++ slug)
  | some company =>
    .ok ((s.milestones.filter (fun m => m.company_id = company.id)).mergeSort
      (fun a b => a.order_index ≤ b.order_index))

/-- The field update of `update_milestone({milestone_id, status, notes})`:
`update = {status, updated_at: now}`, plus `completed_at = now` exactly when
the new status is `'done'`, plus `notes` when truthy. -/
def applyMilestoneUpdate (now status : String) (notes : Option String)
    (m : Milestone) : Milestone :=
  { m with
    status := status
    updated_at := some now
    completed_at := if status = "done" then some now else m.completed_at
    notes := match notes with
      | some n => if n = "" then m.notes else some n
      | none => m.notes }

/-- `update_milestone({milestone_id, status, notes})`, from the source:
update the matching row; returned `milestone` is `data[0]`. -/
def update_milestone (now : String) (milestone_id : Nat) (status : String)
    (notes : Option String) (s : Store) : Store × MilestoneResult :=
  let upd := fun (m : Milestone) =>
    if m.id = milestone_id then applyMilestoneUpdate now status notes m else m
  let s' := { s with milestones := s.milestones.map upd }
  let returned := (s.milestones.filter (fun m => m.id = milestone_id)).map upd
  (s', { success := true, milestone := returned.head? })

/-- The field update of `update_dev_task({task_id, status, assigned_to,
priority})`: each field only when truthy; `completed_at = now` exactly when
a status is supplied and it is `'done'`. -/
def applyDevTaskUpdate (now : String) (status assigned_to priority : Option String)
    (t : DevTask) : DevTask :=
  let t1 := { t with updated_at := some now }
  let t2 := match status with
    | some st =>
      if st = "" then t1
      else { t1 with status := st,
                     completed_at := if st = "done" then some now else t1.completed_at }
    | none => t1
  let t3 := match assigned_to with
    | some a => if a = "" then t2 else { t2 with assigned_to := some a }
    | none => t2
  match priority with
  | some p => if p = "" then t3 else { t3 with priority := p }
  | none => t3

/-- Result shape of `update_dev_task`. -/
structure DevTaskResult where
  success : Bool
  task : DevTask
  deriving Repr, DecidableEq

/-- `update_dev_task({task_id, status, assigned_to, priority})`, from the
source: update the matching row; `.single()` demands exactly the one
updated row, so a missing task id surfaces as a store error. -/
def update_dev_task (now : String) (task_id : Nat)
    (status assigned_to priority : Option String) (s : Store) :
    Except String (Store × DevTaskResult) :=
  let upd := fun (t : DevTask) =>
    if t.id = task_id then applyDevTaskUpdate now status assigned_to priority t else t
  let s' := { s with devTasks := s.devTasks.map upd }
  match ((s.devTasks.filter (fun t => t.id = task_id)).map upd).head? with
  | none => .error "JSON object requested, multiple (or no) rows returned"
  | some t => .ok (s', { success := true, task := t })

/-! ## IEEE-754 binary64 arithmetic (exact, over dyadic rationals)

`get_portfolio_summary` computes `Math.round((done / total) * 100)` in
JavaScript numbers, i.e. binary64.  Division and multiplication round the
exact rational result to the nearest double — 53 significant bits, ties to
even — and `Math.round` then rounds the exact value of that double half
towards `+∞`.  All values arising here are small positive normal numbers,
so neither subnormals nor overflow can occur and rounding to 53 bits is
the whole story.  A nonnegative double is carried as an exact dyadic
rational `m · 2^e`. -/

/-- Fuel-driven floor of `log₂` (structural, so the kernel can run it). -/
def log2fuel : Nat → Nat → Nat
  | 0, _ => 0
  | fuel + 1, n => if n ≤ 1 then 0 else log2fuel fuel (n / 2) + 1

/-- `⌊log₂ n⌋` for `n ≥ 1` (0 at 0). -/
def log2floor (n : Nat) : Nat := log2fuel n n

/-- A nonnegative dyadic rational `m · 2^e`: the exact value of a binary64
number. -/
structure Dyadic where
  m : Nat
  e : Int
  deriving Repr, DecidableEq

/-- Round the fraction `N / D` to the nearest natural, ties to even. -/
def rNearestEven (N D : Nat) : Nat :=
  let q := N / D
  let r := N % D
  if 2 * r < D then q
  else if D < 2 * r then q + 1
  else if q % 2 = 0 then q else q + 1

/-- Is `2^e ≤ a / b`, for naturals `a b ≥ 1`? -/
def binadeLe (e : Int) (a b : Nat) : Bool :=
  if 0 ≤ e then b * 2 ^ e.toNat ≤ a else b ≤ a * 2 ^ (-e).toNat

/-- Binary64 division `a / b` of two naturals: the exact quotient rounded
to 53 significant bits, ties to even.  The binade exponent `e` satisfies
`2^e ≤ a/b < 2^(e+1)`; the significand is the correctly rounded
`a · 2^(52-e) / b`. -/
def divDouble (a b : Nat) : Dyadic :=
  if a = 0 || b = 0 then ⟨0, 0⟩
  else
    let e0 : Int := (log2floor a : Int) - (log2floor b : Int)
    let e := if binadeLe e0 a b then e0 else e0 - 1
    let s : Int := 52 - e
    let N := if 0 ≤ s then a * 2 ^ s.toNat else a
    let D := if 0 ≤ s then b else b * 2 ^ (-s).toNat
    ⟨rNearestEven N D, e - 52⟩

/-- Binary64 multiplication of a double by a small exact natural (here
100): the exact product `k·m · 2^e`, re-rounded to 53 significant bits,
ties to even, when it no longer fits. -/
def mulNatDouble (k : Nat) (x : Dyadic) : Dyadic :=
  let M := k * x.m
  if M = 0 then ⟨0, 0⟩
  else
    let s := log2floor M
    if s ≤ 52 then ⟨M, x.e⟩
    else ⟨rNearestEven M (2 ^ (s - 52)), x.e + (s - 52 : Nat)⟩

/-- `Math.round` on the exact value of a double: half rounds towards `+∞`,
i.e. `⌊x + 1/2⌋`. -/
def mathRoundD (x : Dyadic) : Int :=
  if 0 ≤ x.e then (x.m : Int) * 2 ^ x.e.toNat
  else
    let k := (-x.e).toNat
    ((x.m + 2 ^ (k - 1)) / 2 ^ k : Nat)

/-- `Math.round((done / total) * 100)` as JavaScript evaluates it: binary64
division, binary64 multiplication by the exact double 100, `Math.round`. -/
def jsProgress (done total : Nat) : Int :=
  mathRoundD (mulNatDouble 100 (divDouble done total))

/-- `round(100 × done / total)` on exact rationals, half rounded up:
`⌊100·done/total + 1/2⌋ = (200·done + total) / (2·total)`. -/
def exactProgress (done total : Nat) : Nat :=
  (200 * done + total) / (2 * total)

/-! ## `get_portfolio_summary` -/

/-- One row of the portfolio summary. -/
structure SummaryRow where
  name : String
  slug : String
  status : String
  progress : Int
  milestones : String
  deriving Repr, DecidableEq

/-- `get_portfolio_summary()`, from the source: for each company, count its
milestones and the ones with status `'done'`, and report
`total ? Math.round((done / total) * 100) : 0`. -/
def get_portfolio_summary (s : Store) : List SummaryRow :=
  s.companies.map (fun c =>
    let ms := s.milestones.filter (fun m => m.company_id = c.id)
    let total := ms.length
    let done := (ms.filter (fun m => m.status = "done")).length
    { name := c.name, slug := c.slug, status := c.status,
      progress := if total = 0 then 0 else jsProgress done total,
      milestones := toString done ++ "/" ++ toString total })

/-! ## JavaScript truthiness for optional string arguments -/

/-- JS truthiness of an optional string: `undefined`, `null` and `''` are
falsy. -/
def isTruthy : Option String → Bool
  | some s => s ≠ ""
  | none => false

/-! ## `get_document_content` -/

/-- A `documents` row (extended-variant schema: `file_type`, `file_url`). -/
structure Doc where
  id : Nat
  company_id : Option Nat := none
  name : String
  file_type : Option String := none
  file_url : String
  category : Option String := none
  deriving Repr, DecidableEq

/-- Outcome of one `fetch` of a URL, supplied by the network environment:
either a network failure / abort with an error message, or a response with
its `ok` flag, HTTP status and body text. -/
inductive FetchOutcome where
  | fail (msg : String)
  | resp (ok : Bool) (status : Nat) (text : String)
  deriving Repr, DecidableEq

/-- The allow-list of text-like extensions of `get_document_content`. -/
def textFormats : List String :=
  ["md", "txt", "json", "csv", "html", "xml", "js", "ts", "py", "sql"]

/-- Result shape of `get_document_content`: the source returns objects with
varying key sets, modelled as optional fields (`none` = key absent). -/
structure DocContentResult where
  document : Doc
  content : Option String
  message : Option String := none
  error : Option String := none
  truncated : Option Bool := none
  deriving Repr, DecidableEq

/-- The truncation threshold and marker of `get_document_content`. -/
def truncLimit : Nat := 50000

/-- `'\n\n... [truncated]'`. -/
def truncMarker : String := "\n\n... [truncated]"

/-- `doc.file_type?.toLowerCase()`: the document's lowercased extension. -/
def docExt (doc : Doc) : Option String :=
  doc.file_type.map (fun t => String.mk (t.toList.map Char.toLower))

/-- `textFormats.includes(ext)` (false on a missing extension, as for JS
`undefined`). -/
def extAllowed (doc : Doc) : Bool :=
  match docExt doc with
  | some e => e ∈ textFormats
  | none => false

/-- The `${ext}` interpolation: a missing extension prints `undefined`. -/
def docExtShown (doc : Doc) : String :=
  match docExt doc with
  | some e => e
  | none => "undefined"

/-- `get_document_content({document_id})`, from the source: look the
document up; a non-allow-listed (or absent) extension returns metadata
plus a pointer message and `content: null` without touching the network;
an allow-listed extension fetches `file_url`, hard-truncates bodies over
50,000 characters appending the marker, and reports the `truncated` flag;
fetch failures are caught and reported with `content: null`. -/
def get_document_content (docs : List Doc) (document_id : Nat)
    (fetch : String → FetchOutcome) : Except String DocContentResult :=
  match docs.find? (fun d => d.id = document_id) with
  | none => .error "JSON object requested, multiple (or no) rows returned"
  | some doc =>
    if extAllowed doc = false then
      .ok { document := doc, content := none,
            message := some ("Cannot read content of ." ++ docExtShown doc ++
              " files directly. Use the URL to view: " ++ doc.file_url) }
    else
      match fetch doc.file_url with
      | .fail msg =>
        .ok { document := doc, content := none, error := some msg }
      | .resp ok status text =>
        if ok = false then
          .ok { document := doc, content := none,
                error := some ("Failed to fetch: " ++ toString status) }
        else
          let truncated := truncLimit < text.length
          let content :=
            if truncated then String.mk (text.toList.take truncLimit) ++ truncMarker
            else text
          .ok { document := doc, content := some content, truncated := some truncated }

/-! ## Deployments -/

/-- A `deployments` row. -/
structure Deployment where
  id : Nat
  name : String
  slug : String
  description : Option String := none
  status : String := "active"
  updated_at : Option String := none
  deriving Repr, DecidableEq

/-- A `deployment_components` row.  `config` is a JSON object, modelled as
a key/value list (a `none` value is JSON `null`). -/
structure DeploymentComponent where
  id : Nat
  deployment_id : Nat
  component_type : String
  status : String
  url : Option String := none
  config : List (String × Option String) := []
  last_checked : Option String := none
  error_message : Option String := none
  updated_at : Option String := none
  deriving Repr, DecidableEq

/-- The deployment slice of the store. -/
structure DepStore where
  nextId : Nat := 0
  deployments : List Deployment := []
  components : List DeploymentComponent := []
  deriving Repr, DecidableEq

/-- The four fixed component types, in the creation order of
`add_deployment`. -/
def fixedComponentTypes : List String :=
  ["github", "frontend", "mcp_server", "database"]

/-- The four component rows `add_deployment` inserts for a new deployment,
from the source: per-URL status `'unknown'` vs `'not_configured'`, the
github config carries `repo_url`/`branch`, the database config carries
`type`/`provider` and has no URL. -/
def newComponents (depId baseId : Nat)
    (github_url frontend_url mcp_server_url database_type database_provider :
      Option String) : List DeploymentComponent :=
  [ { id := baseId, deployment_id := depId, component_type := "github",
      status := if isTruthy github_url then "unknown" else "not_configured",
      url := github_url,
      config := if isTruthy github_url then
          [("repo_url", github_url), ("branch", some "main")] else [] },
    { id := baseId + 1, deployment_id := depId, component_type := "frontend",
      status := if isTruthy frontend_url then "unknown" else "not_configured",
      url := frontend_url, config := [] },
    { id := baseId + 2, deployment_id := depId, component_type := "mcp_server",
      status := if isTruthy mcp_server_url then "unknown" else "not_configured",
      url := mcp_server_url, config := [] },
    { id := baseId + 3, deployment_id := depId, component_type := "database",
      status := if isTruthy database_type then "unknown" else "not_configured",
      url := none,
      config := [("type", database_type), ("provider", database_provider)] } ]

/-- `add_deployment({name, description, github_url, frontend_url,
mcp_server_url, database_type, database_provider})`, from the source:
derive the slug; throw `Deployment with slug "<slug>" already exists` when
a deployment with that slug exists (creating nothing); otherwise insert the
deployment row and its four fixed component rows.  The source then answers
with `get_deployment(...)`; the created row is returned here, the response
shape being read by no claim. -/
def add_deployment (name : String)
    (description github_url frontend_url mcp_server_url database_type
      database_provider : Option String) (s : DepStore) :
    Except String (DepStore × Deployment) :=
  let slug := slugify name
  match s.deployments.find? (fun d => d.slug = slug) with
  | some _ => .error ("Deployment with slug \"" ++ slug ++ "\" already exists")
  | none =>
    let dep : Deployment :=
      { id := s.nextId, name := name, slug := slug, description := description,
        status := "active" }
    let comps := newComponents dep.id (s.nextId + 1) github_url frontend_url
      mcp_server_url database_type database_provider
    let s' : DepStore :=
      { nextId := s.nextId + 5,
        deployments := s.deployments ++ [dep],
        components := s.components ++ comps }
    .ok (s', dep)

/-- The field update of `update_deployment`: `name`/`status` when truthy,
`description` when the argument is present. -/
def applyDeploymentUpdate (now : String)
    (name description status : Option String) (d : Deployment) : Deployment :=
  let d1 := { d with updated_at := some now }
  let d2 := match name with
    | some n => if n = "" then d1 else { d1 with name := n }
    | none => d1
  let d3 := match description with
    | some de => { d2 with description := some de }
    | none => d2
  match status with
  | some st => if st = "" then d3 else { d3 with status := st }
  | none => d3

/-- `update_deployment({deployment_id, name, description, status})`, from
the source: set `name`/`status` when truthy and `description` when the
argument is present; `.single()` demands the one updated row. -/
def update_deployment (now : String) (deployment_id : Nat)
    (name description status : Option String) (s : DepStore) :
    Except String (DepStore × Deployment) :=
  let upd := fun (d : Deployment) =>
    if d.id = deployment_id then applyDeploymentUpdate now name description status d
    else d
  let s' := { s with deployments := s.deployments.map upd }
  match ((s.deployments.filter (fun d => d.id = deployment_id)).map upd).head? with
  | none => .error "JSON object requested, multiple (or no) rows returned"
  | some d => .ok (s', d)

/-- Merge of JSON objects by spread `{...existing, ...config}`: existing
keys keep their place, overridden when re-given; new keys are appended. -/
def mergeConfig (old new : List (String × Option String)) :
    List (String × Option String) :=
  old.map (fun p => match new.find? (fun q => q.1 = p.1) with
    | some q => q
    | none => p) ++
  new.filter (fun q => (old.find? (fun p => p.1 = q.1)).isNone)

/-- The field update of `update_deployment_component`: `status` when
truthy, `url` when present, `config` merged (not replaced) when present. -/
def applyComponentUpdate (now : String) (status : Option String)
    (url : Option (Option String))
    (config : Option (List (String × Option String)))
    (c : DeploymentComponent) : DeploymentComponent :=
  let c1 := { c with updated_at := some now }
  let c2 := match status with
    | some st => if st = "" then c1 else { c1 with status := st }
    | none => c1
  let c3 := match url with
    | some u => { c2 with url := u }
    | none => c2
  match config with
  | some cfg => { c3 with config := mergeConfig c3.config cfg }
  | none => c3

/-- `update_deployment_component({deployment_id, component, status, url,
config})`, from the source: update the row matching the deployment id and
component type; `status` when truthy, `url` when present, `config` merged
(not replaced) when present; `.single()` demands the one updated row. -/
def update_deployment_component (now : String) (deployment_id : Nat)
    (component : String) (status : Option String) (url : Option (Option String))
    (config : Option (List (String × Option String))) (s : DepStore) :
    Except String (DepStore × DeploymentComponent) :=
  let upd := fun (c : DeploymentComponent) =>
    if c.deployment_id = deployment_id && c.component_type = component then
      applyComponentUpdate now status url config c
    else c
  let s' := { s with components := s.components.map upd }
  match ((s.components.filter (fun c =>
      c.deployment_id = deployment_id && c.component_type = component)).map upd).head? with
  | none => .error "JSON object requested, multiple (or no) rows returned"
  | some c => .ok (s', c)

/-- `delete_deployment({deployment_id})`, from the source: delete the
deployment row.

Modelled from the spec: the deployments schema is not among the sources
(only `schema.sql` for the tracker tables is); per the spec, "deleting a
Deployment cascades to its components", so the component rows of the
deployment are removed with it. -/
def delete_deployment (deployment_id : Nat) (s : DepStore) :
    DepStore × Nat :=
  ({ s with
      deployments := s.deployments.filter (fun d => d.id ≠ deployment_id),
      components := s.components.filter (fun c => c.deployment_id ≠ deployment_id) },
   deployment_id)

/-! ## Deployment health checker (`check_deployment_health`) -/

/-- Outcome of one HTTP probe, supplied by the network environment as a
function of the probed URL and the timeout passed to the aborting
controller: a rejection (network failure, or the 10-second abort firing)
with its error message, or a response with `ok` flag, HTTP status code and
observed latency in milliseconds. -/
inductive ProbeOutcome where
  | fail (msg : String)
  | resp (ok : Bool) (status : Nat) (latency : Nat)
  deriving Repr, DecidableEq

/-- The network environment seen by the health checker. -/
def ProbeEnv : Type := String → Nat → ProbeOutcome

/-- `url.replace(/\/$/, '')`: strip one trailing slash. -/
def stripTrailingSlash (u : String) : String :=
  match u.toList.reverse with
  | '/' :: rest => String.mk rest.reverse
  | _ => u

/-- The URL actually probed: `/health` appended (after stripping a trailing
slash) for the `mcp_server` component type, the raw URL otherwise. -/
def healthCheckUrl (component_type u : String) : String :=
  if component_type = "mcp_server" then stripTrailingSlash u ++ "/health" else u

/-- The probe timeout, milliseconds: `setTimeout(() => controller.abort(), 10000)`. -/
def probeTimeoutMs : Nat := 10000

/-- The latency threshold, milliseconds: `latency > 5000 ? 'degraded' : 'healthy'`. -/
def latencyThresholdMs : Nat := 5000

/-- One entry of the returned `health_check` map (optional fields model the
source's per-branch key sets). -/
structure HealthEntry where
  status : String
  latency : Option Nat := none
  error : Option String := none
  checked : Bool
  deriving Repr, DecidableEq

/-- The columns persisted for one probed component. -/
structure PersistFields where
  status : String
  last_checked : String
  error_message : Option String
  updated_at : String
  deriving Repr, DecidableEq

/-- Everything `check_deployment_health` does for one component: which
probe was issued (if any), the map entry reported, and the columns
persisted (if any). -/
structure ComponentCheck where
  probed : Option (String × Nat)
  entry : HealthEntry
  persist : Option PersistFields
  deriving Repr, DecidableEq

/-- The per-component body of `check_deployment_health`, from the source:
no (truthy) URL → `not_configured`, unprobed, nothing persisted; otherwise
a GET of `healthCheckUrl` with the 10-second timeout, classified as `down`
(rejection, message recorded), `degraded` (`HTTP <code>` on a non-ok
response, or an ok response slower than 5000 ms), or `healthy`; every
probed classification persists status, `last_checked := now` and the set
or cleared `error_message`. -/
def checkComponent (env : ProbeEnv) (now : String)
    (comp : DeploymentComponent) : ComponentCheck :=
  match comp.url with
  | none => ⟨none, { status := "not_configured", checked := false }, none⟩
  | some u =>
    if u = "" then ⟨none, { status := "not_configured", checked := false }, none⟩
    else
      let checkUrl := healthCheckUrl comp.component_type u
      match env checkUrl probeTimeoutMs with
      | .fail msg =>
        ⟨some (checkUrl, probeTimeoutMs),
         { status := "down", error := some msg, checked := true },
         some { status := "down", last_checked := now,
                error_message := some msg, updated_at := now }⟩
      | .resp ok code latency =>
        let newStatus :=
          if ok then (if latencyThresholdMs < latency then "degraded" else "healthy")
          else "degraded"
        let errorMessage : Option String :=
          if ok then none else some ("HTTP " ++ toString code)
        ⟨some (checkUrl, probeTimeoutMs),
         { status := newStatus, latency := some latency, checked := true },
         some { status := newStatus, last_checked := now,
                error_message := errorMessage, updated_at := now }⟩

/-- `results[key] = value` on a JS object modelled as a key/value list:
overwrite in place or append. -/
def upsert (m : List (String × HealthEntry)) (k : String) (v : HealthEntry) :
    List (String × HealthEntry) :=
  if m.any (fun p => p.1 = k) then
    m.map (fun p => if p.1 = k then (k, v) else p)
  else m ++ [(k, v)]

/-- Apply the persisted columns of one check to the matching component row. -/
def applyPersist (compId : Nat) (p : PersistFields)
    (cs : List DeploymentComponent) : List DeploymentComponent :=
  cs.map (fun x => if x.id = compId then
    { x with status := p.status, last_checked := some p.last_checked,
             error_message := p.error_message, updated_at := some p.updated_at }
    else x)

/-- The `for (const comp of components)` loop of `check_deployment_health`:
each component is checked with its own `try/catch`, its columns persisted,
its entry recorded under its `component_type`; then the next component. -/
def healthFold (env : ProbeEnv) (now : String) :
    List DeploymentComponent → DepStore → List (String × HealthEntry) →
    DepStore × List (String × HealthEntry)
  | [], s, res => (s, res)
  | c :: cs, s, res =>
    let chk := checkComponent env now c
    let s' := match chk.persist with
      | some p => { s with components := applyPersist c.id p s.components }
      | none => s
    healthFold env now cs s' (upsert res c.component_type chk.entry)

/-- The returned value of `check_deployment_health`. -/
structure HealthReport where
  deployment_id : Nat
  health_check : List (String × HealthEntry)
  deriving Repr, DecidableEq

/-- `check_deployment_health({deployment_id})`, from the source: fetch the
deployment's components, check each independently, persist per-component
results, and return the per-`component_type` map alongside the
deployment id. -/
def check_deployment_health (env : ProbeEnv) (now : String)
    (deployment_id : Nat) (s : DepStore) : DepStore × HealthReport :=
  let comps := s.components.filter (fun c => c.deployment_id = deployment_id)
  let (s', res) := healthFold env now comps s []
  (s', { deployment_id := deployment_id, health_check := res })

/-! ## The `/chat` agent loop -/

/-- JSON values (numbers as integers; no float appears in any serialized
tool payload the claims touch). -/
inductive Json where
  | null
  | bool (b : Bool)
  | num (n : Int)
  | str (s : String)
  | arr (elems : List Json)
  | obj (fields : List (String × Json))

/-- JSON string escaping (quote and backslash; the claims serialize no
control characters). -/
def escapeChar (c : Char) : List Char :=
  if c = '"' then ['\\', '"']
  else if c = '\\' then ['\\', '\\']
  else [c]

/-- A JSON string literal. -/
def jsonQuote (s : String) : String :=
  "\"" ++ String.mk ((s.toList.map escapeChar).flatten) ++ "\""

mutual

/-- `JSON.stringify`. -/
def Json.stringify : Json → String
  | .null => "null"
  | .bool b => if b then "true" else "false"
  | .num n => toString n
  | .str s => jsonQuote s
  | .arr es => "[" ++ stringifyElems es ++ "]"
  | .obj fs => "\x7b" ++ stringifyFields fs ++ "\x7d"

/-- Comma-joined serialized array elements. -/
def stringifyElems : List Json → String
  | [] => ""
  | [j] => j.stringify
  | j :: rest => j.stringify ++ "," ++ stringifyElems rest

/-- Comma-joined serialized object fields. -/
def stringifyFields : List (String × Json) → String
  | [] => ""
  | [(k, v)] => jsonQuote k ++ ":" ++ v.stringify
  | (k, v) :: rest => jsonQuote k ++ ":" ++ v.stringify ++ "," ++ stringifyFields rest

end

/-- A content block of a completion-API response. -/
inductive ContentBlock where
  | text (text : String)
  | tool_use (id : String) (name : String) (input : Json)

/-- A completion-API response: its stop reason and content blocks. -/
structure ModelResponse where
  stop_reason : String
  content : List ContentBlock

/-- One `tool_result` entry.  The source sets `is_error: true` on the error
entry and omits the key otherwise; `is_error := false` models the absent
key. -/
structure ToolResultBlock where
  tool_use_id : String
  content : String
  is_error : Bool := false
  deriving Repr, DecidableEq

/-- The content of one conversation message. -/
inductive MessageContent where
  | text (s : String)
  | blocks (bs : List ContentBlock)
  | results (rs : List ToolResultBlock)

/-- One conversation message. -/
structure ChatMessage where
  role : String
  content : MessageContent

/-- The handler table: tool name to handler; a handler maps its argument
object to a result, or throws with an error message. -/
def HandlerTable : Type := String → Option (Json → Except String Json)

/-- `await handlers[block.name](block.input)` inside the loop's `try`: an
unregistered name makes the call expression itself throw
(`TypeError: handlers[block.name] is not a function`), caught by the same
`catch` as a handler throw. -/
def callTool (handlers : HandlerTable) (name : String) (input : Json) :
    Except String Json :=
  match handlers name with
  | none => .error "handlers[block.name] is not a function"
  | some h => h input

/-- The serialized error payload `JSON.stringify({ error: err.message })`. -/
def errorPayload (msg : String) : String :=
  (Json.obj [("error", Json.str msg)]).stringify

/-- The tool-result entry for one `tool_use` block: serialized result on
success; serialized `{error: message}` tagged `is_error` on a throw. -/
def toolResultFor (handlers : HandlerTable) (id name : String) (input : Json) :
    ToolResultBlock :=
  match callTool handlers name input with
  | .ok result =>
    { tool_use_id := id, content := result.stringify, is_error := false }
  | .error msg =>
    { tool_use_id := id, content := errorPayload msg, is_error := true }

/-- The `for (const block of response.content)` loop: one entry per
`tool_use` block, in order; text blocks produce nothing. -/
def runToolBlocks (handlers : HandlerTable) (blocks : List ContentBlock) :
    List ToolResultBlock :=
  blocks.filterMap (fun b => match b with
    | .text _ => none
    | .tool_use id name input => some (toolResultFor handlers id name input))

/-- One round of the tool-use loop: push the assistant's tool-call turn,
then push the whole batch of tool results as one user message. -/
def agentStep (handlers : HandlerTable) (messages : List ChatMessage)
    (resp : ModelResponse) : List ChatMessage :=
  messages ++
    [{ role := "assistant", content := .blocks resp.content },
     { role := "user", content := .results (runToolBlocks handlers resp.content) }]

/-- The `while (response.stop_reason === 'tool_use')` loop.  `complete` is
the completion API (a function of the history it is sent).  The source has
no iteration cap; `fuel` only bounds the recursion depth of the embedding —
each claim below is a fact about every round, independent of the fuel. -/
def chatLoop (handlers : HandlerTable) (complete : List ChatMessage → ModelResponse) :
    Nat → List ChatMessage → ModelResponse → List ChatMessage × ModelResponse
  | 0, msgs, resp => (msgs, resp)
  | fuel + 1, msgs, resp =>
    if resp.stop_reason = "tool_use" then
      let msgs' := agentStep handlers msgs resp
      chatLoop handlers complete fuel msgs' (complete msgs')
    else (msgs, resp)

/-! ## Derived notions used by the statements -/

/-- The requested tool calls of a response's content, in order. -/
def toolUses (blocks : List ContentBlock) : List (String × String × Json) :=
  blocks.filterMap (fun b => match b with
    | .text _ => none
    | .tool_use id name input => some (id, name, input))

/-- Lookup in the `health_check` result map. -/
def lookupEntry (m : List (String × HealthEntry)) (k : String) :
    Option HealthEntry :=
  (m.find? (fun p => p.1 = k)).map (fun p => p.2)

/-- The component types of one deployment's component rows, in store
order. -/
def componentTypesOf (s : DepStore) (depId : Nat) : List String :=
  (s.components.filter (fun c => c.deployment_id = depId)).map
    (fun c => c.component_type)

/-- The deployment-table operations of the handler set; a state is
reachable when a sequence of successful operations produces it from the
empty store.  Failed operations throw before any insert and leave the
store as it was. -/
inductive Reachable : DepStore → Prop where
  | init : Reachable {}
  | add {s s' : DepStore} {dep : Deployment} {name : String}
      {description github_url frontend_url mcp_server_url database_type
        database_provider : Option String} :
      Reachable s →
      add_deployment name description github_url frontend_url mcp_server_url
        database_type database_provider s = .ok (s', dep) →
      Reachable s'
  | upd {s s' : DepStore} {d : Deployment} {now : String} {deployment_id : Nat}
      {name description status : Option String} :
      Reachable s →
      update_deployment now deployment_id name description status s = .ok (s', d) →
      Reachable s'
  | updComp {s s' : DepStore} {c : DeploymentComponent} {now component : String}
      {deployment_id : Nat} {status : Option String} {url : Option (Option String)}
      {config : Option (List (String × Option String))} :
      Reachable s →
      update_deployment_component now deployment_id component status url config s
        = .ok (s', c) →
      Reachable s'
  | del {s : DepStore} {deployment_id : Nat} :
      Reachable s →
      Reachable (delete_deployment deployment_id s).1
  | health {s : DepStore} {env : ProbeEnv} {now : String} {deployment_id : Nat} :
      Reachable s →
      Reachable (check_deployment_health env now deployment_id s).1

/-- The no-adjacent-hyphens relation on collapsed character lists. -/
def NoAdjHyphen (a b : Char) : Prop := ¬(a = '-' ∧ b = '-')

/-- The inductive strengthening behind the four-components invariant: every
row id is below the id counter, and every deployment has exactly the four
fixed components. -/
def DepWF (s : DepStore) : Prop :=
  (∀ d ∈ s.deployments, d.id < s.nextId ∧
    componentTypesOf s d.id = fixedComponentTypes) ∧
  (∀ c ∈ s.components, c.deployment_id < s.nextId)

/-! # Theorems -/

/-! ## Shared list lemmas -/

theorem filter_eq_nil_of_find?_eq_none {α : Type} {p : α → Bool} {l : List α}
    (h : l.find? p = none) : l.filter p = [] := by
  rw [List.filter_eq_nil_iff]
  intro a ha
  exact List.find?_eq_none.mp h a ha

theorem head?_isSome_of_mem {α : Type} {l : List α} {a : α} (h : a ∈ l) :
    ∃ b, l.head? = some b := by
  cases l with
  | nil => cases h
  | cons x xs => exact ⟨x, rfl⟩

/-! ## C2: slug resolution -/

/-- C2 (amended): the child-entity handlers (`add_milestone`,
`list_milestones`) resolve the company by slug first and fail with
`Company not found: <slug>` when it is absent; `update_company_status`
however updates directly by slug and, when no company matches, reports
`success: true` with no company instead of a not-found error. -/
theorem slug_resolution_law (now slug title status : String)
    (due_date : Option String) (s : Store)
    (habs : findCompany s slug = none) :
    add_milestone slug title due_date s
        = .error ("Company not found: " ++ slug)
    ∧ list_milestones slug s = .error ("Company not found: " ++ slug)
    ∧ (update_company_status now slug status s).2
        = { success := true, company := none } := by
  refine ⟨?_, ?_, ?_⟩
  · simp [add_milestone, habs]
  · simp [list_milestones, habs]
  · have hf : s.companies.filter (fun c => c.slug = slug) = [] :=
      filter_eq_nil_of_find?_eq_none habs
    simp [update_company_status, hf]

/-- C2 witness: the amended behaviour at the empty store and slug
`ghost`. -/
theorem slug_resolution_law_witness :
    (update_company_status "2024-01-01" "ghost" "active" {}).2
      = { success := true, company := none } :=
  (slug_resolution_law "2024-01-01" "ghost" "t" "active" none {} rfl).2.2

/-- C2 counterexample: `update_company_status` acts on a company identified
by its slug argument, yet on a store with no such company it does not fail
with a not-found error — it answers `success: true` with no company. -/
theorem update_company_status_no_resolution :
    findCompany {} "ghost" = none
    ∧ (update_company_status "2024-01-01" "ghost" "active" {})
        = ({}, { success := true, company := none }) := by
  exact ⟨rfl, rfl⟩

/-! ## C8: `completed_at` append-only law -/

/-- C8: a milestone update to status `'done'` stamps `completed_at := now`
(non-null); an update to any other status leaves `completed_at` exactly as
it was, so a previously set value is never cleared; and likewise for dev
tasks via `update_dev_task`, whose optional status only stamps
`completed_at` when it is supplied as `'done'`. -/
theorem completed_at_append_only (now status : String)
    (notes : Option String) (milestone_id task_id : Nat) (s : Store)
    (m : Milestone) (t : DevTask) (st as pr : Option String)
    (hm : m ∈ s.milestones) (hmid : m.id = milestone_id)
    (ht : t ∈ s.devTasks) (htid : t.id = task_id) :
    (applyMilestoneUpdate now status notes m
        ∈ ((update_milestone now milestone_id status notes s).1).milestones
      ∧ (status = "done" →
          (applyMilestoneUpdate now status notes m).completed_at = some now)
      ∧ (status ≠ "done" →
          (applyMilestoneUpdate now status notes m).completed_at = m.completed_at))
    ∧ ((∃ s' r, update_dev_task now task_id st as pr s = .ok (s', r)
          ∧ applyDevTaskUpdate now st as pr t ∈ s'.devTasks)
      ∧ (st = some "done" →
          (applyDevTaskUpdate now st as pr t).completed_at = some now)
      ∧ (∀ v, st = some v → v ≠ "done" →
          (applyDevTaskUpdate now st as pr t).completed_at = t.completed_at)
      ∧ (st = none →
          (applyDevTaskUpdate now st as pr t).completed_at = t.completed_at)) := by
  constructor
  · refine ⟨?_, ?_, ?_⟩
    · have hmem := List.mem_map_of_mem
        (f := fun x => if x.id = milestone_id then
          applyMilestoneUpdate now status notes x else x) hm
      simp only [hmid, if_pos rfl] at hmem
      simpa [update_milestone] using hmem
    · intro h; simp [applyMilestoneUpdate, h]
    · intro h; simp [applyMilestoneUpdate, h]
  · refine ⟨?_, ?_, ?_, ?_⟩
    · have htf : t ∈ s.devTasks.filter (fun x => x.id = task_id) :=
        List.mem_filter.mpr ⟨ht, by simp [htid]⟩
      have htm := List.mem_map_of_mem
        (f := fun x => if x.id = task_id then
          applyDevTaskUpdate now st as pr x else x) htf
      obtain ⟨b, hb⟩ := head?_isSome_of_mem htm
      refine ⟨{ s with devTasks := s.devTasks.map (fun x =>
          if x.id = task_id then applyDevTaskUpdate now st as pr x else x) },
        { success := true, task := b }, ?_, ?_⟩
      · simp only [update_dev_task, hb]
      · have hmem := List.mem_map_of_mem
          (f := fun x => if x.id = task_id then
            applyDevTaskUpdate now st as pr x else x) ht
        simp only [htid, if_pos rfl] at hmem
        simpa using hmem
    · intro h
      rcases as with _ | a <;> rcases pr with _ | p <;>
        simp only [applyDevTaskUpdate, h] <;> split_ifs <;> first | rfl | simp_all
    · intro v hv hne
      subst hv
      by_cases he : v = "" <;>
        rcases as with _ | a <;> rcases pr with _ | p <;>
          simp only [applyDevTaskUpdate] <;> split_ifs <;> first | rfl | simp_all
    · intro h
      rcases as with _ | a <;> rcases pr with _ | p <;>
        simp only [applyDevTaskUpdate, h] <;> split_ifs <;> first | rfl | simp_all

/-- C8 witness: one milestone marked done and one dev task moved to
`in_progress` at a concrete store. -/
theorem completed_at_append_only_witness :
    ((applyMilestoneUpdate "2024-06-01" "done" none
        { id := 1, company_id := 0, title := "m" }).completed_at
      = some "2024-06-01")
    ∧ (applyDevTaskUpdate "2024-06-01" (some "in_progress") none none
        { id := 2, title := "t", completed_at := some "2023-01-01" }).completed_at
      = some "2023-01-01" := by
  have h := completed_at_append_only "2024-06-01" "done" none 1 2
    { companies := [], milestones := [{ id := 1, company_id := 0, title := "m" }],
      devTasks := [{ id := 2, title := "t", completed_at := some "2023-01-01" }] }
    { id := 1, company_id := 0, title := "m" }
    { id := 2, title := "t", completed_at := some "2023-01-01" }
    (some "in_progress") none none
    (by decide) rfl (by decide) rfl
  exact ⟨h.1.2.1 rfl, h.2.2.2.1 "in_progress" rfl (by decide)⟩

/-! ## C3: per-component health classification -/

/-- C3: a component with no (truthy) URL is reported `not_configured` and
never probed or persisted; otherwise one GET with the 10-second timeout is
issued to the component URL — `/health` appended after stripping a trailing
slash for `mcp_server`, the raw URL otherwise — and the classification is:
rejection → `down` with the error message recorded; non-ok response →
`degraded` with `HTTP <code>`; ok response over 5000 ms → `degraded`; ok
response within 5000 ms → `healthy`; every probed classification persists
`last_checked := now` and sets or clears `error_message`. -/
theorem check_component_classification (env : ProbeEnv) (now : String)
    (comp : DeploymentComponent) :
    probeTimeoutMs = 10000 ∧ latencyThresholdMs = 5000
    ∧ ((comp.url = none ∨ comp.url = some "") →
        checkComponent env now comp
          = ⟨none, { status := "not_configured", checked := false }, none⟩)
    ∧ (∀ u, comp.url = some u → u ≠ "" →
        (comp.component_type = "mcp_server" →
          healthCheckUrl comp.component_type u = stripTrailingSlash u ++ "/health")
        ∧ (comp.component_type ≠ "mcp_server" →
          healthCheckUrl comp.component_type u = u)
        ∧ (checkComponent env now comp).probed
            = some (healthCheckUrl comp.component_type u, probeTimeoutMs)
        ∧ (∀ msg, env (healthCheckUrl comp.component_type u) probeTimeoutMs = .fail msg →
            checkComponent env now comp
              = ⟨some (healthCheckUrl comp.component_type u, probeTimeoutMs),
                 { status := "down", error := some msg, checked := true },
                 some { status := "down", last_checked := now,
                        error_message := some msg, updated_at := now }⟩)
        ∧ (∀ code latency,
            env (healthCheckUrl comp.component_type u) probeTimeoutMs
              = .resp false code latency →
            checkComponent env now comp
              = ⟨some (healthCheckUrl comp.component_type u, probeTimeoutMs),
                 { status := "degraded", latency := some latency, checked := true },
                 some { status := "degraded", last_checked := now,
                        error_message := some ("HTTP " ++ toString code),
                        updated_at := now }⟩)
        ∧ (∀ code latency,
            env (healthCheckUrl comp.component_type u) probeTimeoutMs
              = .resp true code latency →
            (latencyThresholdMs < latency →
              checkComponent env now comp
                = ⟨some (healthCheckUrl comp.component_type u, probeTimeoutMs),
                   { status := "degraded", latency := some latency, checked := true },
                   some { status := "degraded", last_checked := now,
                          error_message := none, updated_at := now }⟩)
            ∧ (latency ≤ latencyThresholdMs →
              checkComponent env now comp
                = ⟨some (healthCheckUrl comp.component_type u, probeTimeoutMs),
                   { status := "healthy", latency := some latency, checked := true },
                   some { status := "healthy", last_checked := now,
                          error_message := none, updated_at := now }⟩))) := by
  refine ⟨rfl, rfl, ?_, ?_⟩
  · rintro (h | h) <;> simp [checkComponent, h]
  · intro u hu hne
    refine ⟨?_, ?_, ?_, ?_, ?_, ?_⟩
    · intro h; simp [healthCheckUrl, h]
    · intro h; simp [healthCheckUrl, h]
    · cases henv : env (healthCheckUrl comp.component_type u) probeTimeoutMs with
      | fail msg =>
        rw [checkComponent.eq_def, hu]; simp [hne, henv]
      | resp ok code latency =>
        rw [checkComponent.eq_def, hu]; simp [hne, henv]
    · intro msg henv
      rw [checkComponent.eq_def, hu]; simp [hne, henv]
    · intro code latency henv
      rw [checkComponent.eq_def, hu]; simp [hne, henv]
    · intro code latency henv
      constructor
      · intro hl
        rw [checkComponent.eq_def, hu]; simp [hne, henv, hl]
      · intro hl
        rw [checkComponent.eq_def, hu]; simp [hne, henv, Nat.not_lt.mpr hl]

/-- C3 witness: a 503 response on a trailing-slash `mcp_server` URL is
classified `degraded` with error `HTTP 503`. -/
theorem check_component_classification_witness :
    checkComponent (fun _ _ => .resp false 503 40) "2024-01-01"
        { id := 7, deployment_id := 3, component_type := "mcp_server",
          status := "unknown", url := some "http://x/" }
      = ⟨some ("http://x/health", probeTimeoutMs),
         { status := "degraded", latency := some 40, checked := true },
         some { status := "degraded", last_checked := "2024-01-01",
                error_message := some ("HTTP " ++ toString 503),
                updated_at := "2024-01-01" }⟩ := by
  have h := check_component_classification (fun _ _ => .resp false 503 40)
    "2024-01-01"
    { id := 7, deployment_id := 3, component_type := "mcp_server",
      status := "unknown", url := some "http://x/" }
  have h2 := (h.2.2.2 "http://x/" rfl (by decide)).2.2.2.2.1 503 40 rfl
  simpa using h2

/-! ## C4: per-component isolation of the health check -/

theorem find?_map_overwrite {k k' : String} {v : HealthEntry}
    (hne : k' ≠ k) :
    ∀ m : List (String × HealthEntry),
      ((m.map (fun p => if p.1 = k then (k, v) else p)).find?
        (fun p => p.1 = k'))
      = m.find? (fun p => p.1 = k') := by
  intro m
  induction m with
  | nil => rfl
  | cons p rest ih =>
    by_cases hp : p.1 = k
    · have hp' : (p.1 = k') = False := by simp [hp, Ne.symm hne]
      simp [hp, List.find?_cons, Ne.symm hne, hp', ih]
    · by_cases hk' : p.1 = k'
      · simp [hp, List.find?_cons, hk', hne]
      · simp [hp, List.find?_cons, hk', ih]

theorem find?_map_overwrite_self {k : String} {v : HealthEntry} :
    ∀ m : List (String × HealthEntry), m.any (fun p => p.1 = k) = true →
      ((m.map (fun p => if p.1 = k then (k, v) else p)).find?
        (fun p => p.1 = k))
      = some (k, v) := by
  intro m
  induction m with
  | nil => intro h; cases h
  | cons p rest ih =>
    intro hany
    by_cases hp : p.1 = k
    · simp [hp, List.find?_cons]
    · have : rest.any (fun p => p.1 = k) = true := by
        simpa [List.any_cons, hp] using hany
      simp [hp, List.find?_cons, ih this]

theorem lookupEntry_upsert_self (m : List (String × HealthEntry))
    (k : String) (v : HealthEntry) :
    lookupEntry (upsert m k v) k = some v := by
  unfold upsert lookupEntry
  by_cases hany : m.any (fun p => p.1 = k) = true
  · simp [hany, find?_map_overwrite_self m hany]
  · have hnone : m.find? (fun p => p.1 = k) = none := by
      rw [List.find?_eq_none]
      intro x hx
      by_contra hc
      exact hany (List.any_eq_true.mpr ⟨x, hx, by simpa using hc⟩)
    simp [hany, List.find?_append, hnone]

theorem lookupEntry_upsert_other (m : List (String × HealthEntry))
    (k k' : String) (v : HealthEntry) (hne : k' ≠ k) :
    lookupEntry (upsert m k v) k' = lookupEntry m k' := by
  unfold upsert lookupEntry
  by_cases hany : m.any (fun p => p.1 = k) = true
  · simp [hany, find?_map_overwrite hne m]
  · cases hfind : m.find? (fun p => p.1 = k') with
    | some p => simp [hany, List.find?_append, hfind]
    | none => simp [hany, List.find?_append, hfind, Ne.symm hne]

theorem healthFold_isSome_preserved (env : ProbeEnv) (now : String) :
    ∀ (cs : List DeploymentComponent) (s : DepStore)
      (res : List (String × HealthEntry)) (k : String),
      (lookupEntry res k).isSome = true →
      (lookupEntry (healthFold env now cs s res).2 k).isSome = true := by
  intro cs
  induction cs with
  | nil => intro s res k h; exact h
  | cons c rest ih =>
    intro s res k h
    rw [healthFold.eq_def]
    by_cases hk : k = c.component_type
    · refine ih _ _ k ?_
      rw [hk, lookupEntry_upsert_self]; rfl
    · exact ih _ _ k (by rwa [lookupEntry_upsert_other _ _ _ _ hk])

theorem healthFold_lookup_isSome (env : ProbeEnv) (now : String) :
    ∀ (cs : List DeploymentComponent) (s : DepStore)
      (res : List (String × HealthEntry)) (c : DeploymentComponent),
      c ∈ cs →
      (lookupEntry (healthFold env now cs s res).2 c.component_type).isSome
        = true := by
  intro cs
  induction cs with
  | nil => intro s res c h; cases h
  | cons c0 rest ih =>
    intro s res c hc
    rw [healthFold.eq_def]
    rcases List.mem_cons.mp hc with h | h
    · subst h
      exact healthFold_isSome_preserved env now rest _ _ _
        (by rw [lookupEntry_upsert_self]; rfl)
    · exact ih _ _ c h

theorem healthFold_lookup_notmem (env : ProbeEnv) (now : String) :
    ∀ (cs : List DeploymentComponent) (s : DepStore)
      (res : List (String × HealthEntry)) (ty : String),
      ty ∉ cs.map (fun c => c.component_type) →
      lookupEntry (healthFold env now cs s res).2 ty = lookupEntry res ty := by
  intro cs
  induction cs with
  | nil => intro s res ty _; rfl
  | cons c0 rest ih =>
    intro s res ty hty
    rw [healthFold.eq_def]
    have h1 : ty ≠ c0.component_type := by
      intro h; exact hty (by simp [h])
    have h2 : ty ∉ rest.map (fun c => c.component_type) := by
      intro h; exact hty (by simp [h])
    rw [ih _ _ ty h2, lookupEntry_upsert_other _ _ _ _ h1]

theorem healthFold_lookup_nodup (env : ProbeEnv) (now : String) :
    ∀ (cs : List DeploymentComponent) (s : DepStore)
      (res : List (String × HealthEntry)) (c : DeploymentComponent),
      (cs.map (fun c => c.component_type)).Nodup → c ∈ cs →
      lookupEntry (healthFold env now cs s res).2 c.component_type
        = some (checkComponent env now c).entry := by
  intro cs
  induction cs with
  | nil => intro s res c _ h; cases h
  | cons c0 rest ih =>
    intro s res c hnd hc
    rw [healthFold.eq_def]
    have hnd' : (c0.component_type ::
        rest.map (fun x => x.component_type)).Nodup := by simpa using hnd
    obtain ⟨hnotin0, hrest⟩ := List.nodup_cons.mp hnd'
    rcases List.mem_cons.mp hc with h | h
    · subst h
      rw [healthFold_lookup_notmem env now rest _ _ _ hnotin0,
        lookupEntry_upsert_self]
    · exact ih _ _ c hrest h

/-- C4: every component of the deployment gets its own entry in the
returned map — a probe failure on one component never prevents the entries
of the others — the map is keyed by `component_type` (each entry being that
component's own classification when the types are distinct), and the
report carries the correlating deployment id. -/
theorem health_check_isolation (env : ProbeEnv) (now : String)
    (deployment_id : Nat) (s : DepStore) :
    (check_deployment_health env now deployment_id s).2.deployment_id
      = deployment_id
    ∧ (∀ c ∈ s.components.filter (fun c => c.deployment_id = deployment_id),
        (lookupEntry
          (check_deployment_health env now deployment_id s).2.health_check
          c.component_type).isSome = true)
    ∧ (((s.components.filter (fun c => c.deployment_id = deployment_id)).map
          (fun c => c.component_type)).Nodup →
        ∀ c ∈ s.components.filter (fun c => c.deployment_id = deployment_id),
          lookupEntry
            (check_deployment_health env now deployment_id s).2.health_check
            c.component_type
          = some (checkComponent env now c).entry) := by
  refine ⟨?_, ?_, ?_⟩
  · simp [check_deployment_health]
  · intro c hc
    simp only [check_deployment_health]
    exact healthFold_lookup_isSome env now _ s [] c hc
  · intro hnd c hc
    simp only [check_deployment_health]
    exact healthFold_lookup_nodup env now _ s [] c hnd hc

/-- C4 witness: with the github probe failing and the frontend probe
healthy, both components of deployment 3 still get their own entries. -/
theorem health_check_isolation_witness :
    lookupEntry
      (check_deployment_health
        (fun u _ => if u = "http://gh" then .fail "boom" else .resp true 200 40)
        "2024-01-01" 3
        { nextId := 10,
          deployments := [{ id := 3, name := "App", slug := "app" }],
          components :=
            [{ id := 4, deployment_id := 3, component_type := "github",
               status := "unknown", url := some "http://gh" },
             { id := 5, deployment_id := 3, component_type := "frontend",
               status := "unknown", url := some "http://fe" }] }).2.health_check
      "frontend"
    = some { status := "healthy", latency := some 40, checked := true } := by
  have h := (health_check_isolation
    (fun u _ => if u = "http://gh" then .fail "boom" else .resp true 200 40)
    "2024-01-01" 3
    { nextId := 10,
      deployments := [{ id := 3, name := "App", slug := "app" }],
      components :=
        [{ id := 4, deployment_id := 3, component_type := "github",
           status := "unknown", url := some "http://gh" },
         { id := 5, deployment_id := 3, component_type := "frontend",
           status := "unknown", url := some "http://fe" }] }).2.2
    (by decide)
    { id := 5, deployment_id := 3, component_type := "frontend",
      status := "unknown", url := some "http://fe" }
    (by decide)
  simpa using h

/-! ## C1: batched tool results in the agent loop -/

/-- C1: in a `tool_use` round the loop produces exactly one result entry
per requested call, in request order — a failing handler yields the
serialized `{error: message}` entry tagged `is_error`, a succeeding one the
serialized result — the whole batch is appended as one message together
with the assistant turn, and only then is the next completion request
issued, on the full post-batch history; no partial batch is ever sent. -/
theorem agent_loop_batches (handlers : HandlerTable)
    (complete : List ChatMessage → ModelResponse) (fuel : Nat)
    (msgs : List ChatMessage) (resp : ModelResponse)
    (hstop : resp.stop_reason = "tool_use") :
    chatLoop handlers complete (fuel + 1) msgs resp
      = chatLoop handlers complete fuel (agentStep handlers msgs resp)
          (complete (agentStep handlers msgs resp))
    ∧ agentStep handlers msgs resp
      = msgs ++
        [{ role := "assistant", content := .blocks resp.content },
         { role := "user",
           content := .results (runToolBlocks handlers resp.content) }]
    ∧ runToolBlocks handlers resp.content
      = (toolUses resp.content).map
          (fun z => toolResultFor handlers z.1 z.2.1 z.2.2)
    ∧ (∀ id name input msg, callTool handlers name input = .error msg →
        toolResultFor handlers id name input
          = { tool_use_id := id, content := errorPayload msg, is_error := true })
    ∧ (∀ id name input r, callTool handlers name input = .ok r →
        toolResultFor handlers id name input
          = { tool_use_id := id, content := r.stringify, is_error := false }) := by
  refine ⟨?_, rfl, ?_, ?_, ?_⟩
  · rw [chatLoop.eq_def]
    simp [hstop]
  · unfold runToolBlocks toolUses
    induction resp.content with
    | nil => rfl
    | cons b rest ih =>
      cases b with
      | text t => simpa using ih
      | tool_use id name input => simpa using ih
  · intro id name input msg h
    simp [toolResultFor, h]
  · intro id name input r h
    simp [toolResultFor, h]

/-- C1 witness: a round with one succeeding and one failing call produces
the two-entry batch, the failing entry carrying the serialized error. -/
theorem agent_loop_batches_witness :
    runToolBlocks
      (fun n => if n = "good" then some (fun _ => .ok (.str "fine"))
        else if n = "bad" then some (fun _ => .error "boom") else none)
      [.tool_use "t1" "good" .null, .tool_use "t2" "bad" .null]
    = (toolUses [.tool_use "t1" "good" .null, .tool_use "t2" "bad" .null]).map
        (fun z => toolResultFor
          (fun n => if n = "good" then some (fun _ => .ok (.str "fine"))
            else if n = "bad" then some (fun _ => .error "boom") else none)
          z.1 z.2.1 z.2.2) :=
  (agent_loop_batches
    (fun n => if n = "good" then some (fun _ => .ok (.str "fine"))
      else if n = "bad" then some (fun _ => .error "boom") else none)
    (fun _ => { stop_reason := "end_turn", content := [] }) 0 []
    { stop_reason := "tool_use",
      content := [.tool_use "t1" "good" .null, .tool_use "t2" "bad" .null] }
    rfl).2.2.1

/-! ## C10: an unknown tool name is caught like a handler error -/

/-- C10: when the model requests a tool whose name is not in the handler
table, the call throws inside the same `try` as a handler failure, so the
loop emits an error-tagged result entry for that call's id and proceeds to
the next completion request with the full batch — it never aborts the
request. -/
theorem unknown_tool_is_caught (handlers : HandlerTable)
    (complete : List ChatMessage → ModelResponse) (fuel : Nat)
    (msgs : List ChatMessage) (resp : ModelResponse)
    (id name : String) (input : Json)
    (hname : handlers name = none)
    (hstop : resp.stop_reason = "tool_use")
    (hblock : ContentBlock.tool_use id name input ∈ resp.content) :
    callTool handlers name input
      = .error "handlers[block.name] is not a function"
    ∧ ({ tool_use_id := id,
         content := errorPayload "handlers[block.name] is not a function",
         is_error := true } : ToolResultBlock)
        ∈ runToolBlocks handlers resp.content
    ∧ chatLoop handlers complete (fuel + 1) msgs resp
      = chatLoop handlers complete fuel (agentStep handlers msgs resp)
          (complete (agentStep handlers msgs resp)) := by
  have hcall : callTool handlers name input
      = .error "handlers[block.name] is not a function" := by
    simp [callTool, hname]
  refine ⟨hcall, ?_, ?_⟩
  · unfold runToolBlocks
    refine List.mem_filterMap.mpr ⟨ContentBlock.tool_use id name input, hblock, ?_⟩
    simp [toolResultFor, hcall]
  · rw [chatLoop.eq_def]
    simp [hstop]

/-- C10 witness: a request for the unregistered tool `nope` yields the
error-tagged entry and the loop moves on. -/
theorem unknown_tool_is_caught_witness :
    ({ tool_use_id := "t9",
       content := errorPayload "handlers[block.name] is not a function",
       is_error := true } : ToolResultBlock)
      ∈ runToolBlocks (fun _ => none) [.tool_use "t9" "nope" .null] :=
  (unknown_tool_is_caught (fun _ => none)
    (fun _ => { stop_reason := "end_turn", content := [] }) 0 []
    { stop_reason := "tool_use", content := [.tool_use "t9" "nope" .null] }
    "t9" "nope" .null rfl rfl (by simp)).2.1

/-! ## C6: document content allow-list and truncation -/

/-- C6: content is fetched only for the fixed allow-list of text-like
extensions; any other (or missing) extension returns the metadata plus a
pointer message carrying the URL with `content = null`, independent of the
network (never fetched, never decoded); allow-listed content longer than
50,000 characters is hard-truncated at 50,000 characters with the explicit
marker appended and `truncated = true` in the result, shorter content is
returned whole with `truncated = false`. -/
theorem document_content_law (docs : List Doc) (document_id : Nat)
    (fetch : String → FetchOutcome) (doc : Doc)
    (hfind : docs.find? (fun d => d.id = document_id) = some doc) :
    (extAllowed doc = false →
      (∀ fetch2, get_document_content docs document_id fetch2
        = get_document_content docs document_id fetch)
      ∧ get_document_content docs document_id fetch
        = .ok { document := doc, content := none,
                message := some ("Cannot read content of ." ++ docExtShown doc ++
                  " files directly. Use the URL to view: " ++ doc.file_url) })
    ∧ (∀ e, docExt doc = some e → e ∈ textFormats →
        ∀ st text, fetch doc.file_url = .resp true st text →
          (truncLimit < text.length →
            get_document_content docs document_id fetch
              = .ok { document := doc,
                      content := some (String.mk (text.toList.take truncLimit)
                        ++ truncMarker),
                      truncated := some true })
          ∧ (text.length ≤ truncLimit →
            get_document_content docs document_id fetch
              = .ok { document := doc, content := some text,
                      truncated := some false })) := by
  constructor
  · intro hext
    constructor
    · intro fetch2
      rw [get_document_content.eq_def, get_document_content.eq_def, hfind]
      simp [hext]
    · rw [get_document_content.eq_def, hfind]
      simp [hext]
  · intro e he hmem st text hfetch
    have hext : extAllowed doc = true := by
      rw [extAllowed.eq_def, he]
      simpa using hmem
    constructor
    · intro hlen
      rw [get_document_content.eq_def, hfind]
      simp only [hext, hfetch]
      simp [hlen]
    · intro hlen
      rw [get_document_content.eq_def, hfind]
      simp only [hext, hfetch]
      simp [Nat.not_lt.mpr hlen]

/-- C6 witness: an `exe` document returns no content and the pointer URL;
an `md` document of 50,001 characters is truncated with the marker. -/
theorem document_content_law_witness :
    (get_document_content
        [{ id := 1, name := "tool", file_type := some "exe",
           file_url := "http://docs/tool.exe" }]
        1 (fun _ => .fail "unreachable")
      = .ok { document := { id := 1, name := "tool", file_type := some "exe",
                            file_url := "http://docs/tool.exe" },
              content := none,
              message := some ("Cannot read content of .exe files directly." ++
                " Use the URL to view: http://docs/tool.exe") })
    ∧ (get_document_content
        [{ id := 2, name := "notes", file_type := some "md",
           file_url := "http://docs/notes.md" }]
        2 (fun _ => .resp true 200 (String.mk (List.replicate 50001 'a')))
      = .ok { document := { id := 2, name := "notes", file_type := some "md",
                            file_url := "http://docs/notes.md" },
              content := some (String.mk
                ((String.mk (List.replicate 50001 'a')).toList.take truncLimit)
                ++ truncMarker),
              truncated := some true }) := by
  constructor
  · have h := (document_content_law
      [{ id := 1, name := "tool", file_type := some "exe",
         file_url := "http://docs/tool.exe" }]
      1 (fun _ => .fail "unreachable")
      { id := 1, name := "tool", file_type := some "exe",
        file_url := "http://docs/tool.exe" } rfl).1 (by decide)
    simpa using h.2
  · have h := (document_content_law
      [{ id := 2, name := "notes", file_type := some "md",
         file_url := "http://docs/notes.md" }]
      2 (fun _ => .resp true 200 (String.mk (List.replicate 50001 'a')))
      { id := 2, name := "notes", file_type := some "md",
        file_url := "http://docs/notes.md" } rfl).2
      "md" (by decide) (by decide) 200
      (String.mk (List.replicate 50001 'a')) rfl
    refine h.1 ?_
    have e1 : (String.mk (List.replicate 50001 'a')).length
        = (List.replicate 50001 'a').length := rfl
    rw [e1, List.length_replicate]
    decide

/-! ## C7: portfolio progress -/

/-- C7 counterexample: a company with 40 milestones of which 23 are done.
`round(100 × 23/40) = round(57.5) = 58`, but the code computes
`Math.round((23/40) * 100)` in binary64, where `(23/40) * 100` is the
double `57.49999999999999289…`, and reports 57. -/
theorem portfolio_progress_counterexample :
    (get_portfolio_summary
      { nextId := 100,
        companies := [{ id := 1, slug := "acme", name := "Acme" }],
        milestones := (List.range 40).map (fun i =>
          { id := i + 2, company_id := 1, title := "m",
            status := if i < 23 then "done" else "pending" }),
        devTasks := [] }).map (fun r => r.progress) = [57]
    ∧ (((List.range 40).map (fun i =>
          ({ id := i + 2, company_id := 1, title := "m",
             status := if i < 23 then "done" else "pending" } : Milestone))).filter
          (fun m => m.company_id = 1)).length = 40
    ∧ ((((List.range 40).map (fun i =>
          ({ id := i + 2, company_id := 1, title := "m",
             status := if i < 23 then "done" else "pending" } : Milestone))).filter
          (fun m => m.company_id = 1)).filter
          (fun m => m.status = "done")).length = 23
    ∧ exactProgress 23 40 = 58 := by
  refine ⟨?_, ?_, ?_, ?_⟩ <;> decide

/-- C7 (amended): each company's reported progress is
`Math.round((done / total) * 100)` evaluated in binary64 floating point
(`jsProgress`), with 0 reported when the company has no milestones; this
agrees with exact half-up rounding of `100·done/total` for every company
with fewer than 40 milestones, but can differ from it by one beyond that
(first at 23 done of 40). -/
theorem portfolio_progress_law (s : Store) (c : Company)
    (hc : c ∈ s.companies) :
    ({ name := c.name, slug := c.slug, status := c.status,
       progress :=
         (if (s.milestones.filter (fun m => m.company_id = c.id)).length = 0
          then 0
          else jsProgress
            (((s.milestones.filter (fun m => m.company_id = c.id)).filter
              (fun m => m.status = "done")).length)
            ((s.milestones.filter (fun m => m.company_id = c.id)).length)),
       milestones :=
         toString (((s.milestones.filter (fun m => m.company_id = c.id)).filter
             (fun m => m.status = "done")).length)
           ++ "/"
           ++ toString ((s.milestones.filter (fun m => m.company_id = c.id)).length) }
        : SummaryRow) ∈ get_portfolio_summary s
    ∧ ((s.milestones.filter (fun m => m.company_id = c.id)).length = 0 →
        (if (s.milestones.filter (fun m => m.company_id = c.id)).length = 0
         then (0 : Int)
         else jsProgress
            (((s.milestones.filter (fun m => m.company_id = c.id)).filter
              (fun m => m.status = "done")).length)
            ((s.milestones.filter (fun m => m.company_id = c.id)).length)) = 0)
    ∧ (∀ t < 40, ∀ d ≤ t, 0 < t → jsProgress d t = exactProgress d t) := by
  refine ⟨?_, ?_, ?_⟩
  · exact List.mem_map_of_mem (f := fun c =>
      let ms := s.milestones.filter (fun m => m.company_id = c.id)
      let total := ms.length
      let done := (ms.filter (fun m => m.status = "done")).length
      ({ name := c.name, slug := c.slug, status := c.status,
         progress := if total = 0 then 0 else jsProgress done total,
         milestones := toString done ++ "/" ++ toString total } : SummaryRow)) hc
  · intro h; simp [h]
  · set_option maxHeartbeats 1000000 in decide

/-- C7 witness: the amended law at a one-company store with two milestones,
one done: reported progress 50. -/
theorem portfolio_progress_law_witness :
    ({ name := "Acme", slug := "acme", status := "discovery",
       progress := 50, milestones := "1/2" } : SummaryRow)
      ∈ get_portfolio_summary
        { nextId := 10,
          companies := [{ id := 1, slug := "acme", name := "Acme" }],
          milestones :=
            [{ id := 2, company_id := 1, title := "a", status := "done" },
             { id := 3, company_id := 1, title := "b" }],
          devTasks := [] } := by
  have h := (portfolio_progress_law
    { nextId := 10,
      companies := [{ id := 1, slug := "acme", name := "Acme" }],
      milestones :=
        [{ id := 2, company_id := 1, title := "a", status := "done" },
         { id := 3, company_id := 1, title := "b" }],
      devTasks := [] }
    { id := 1, slug := "acme", name := "Acme" } (by decide)).1
  simpa using h

/-! ## C5: slug derivation and collision -/

theorem keep_ne_hyphen {c : Char} (h : isSlugKeep c = true) : c ≠ '-' := by
  intro he
  subst he
  simp [isSlugKeep] at h

theorem collapseRuns_head_keep (d : Char) (rest : List Char)
    (hd : isSlugKeep d = true) :
    ∃ t, collapseRuns (d :: rest) = d :: t := by
  cases rest with
  | nil => exact ⟨[], by simp [collapseRuns, hd]⟩
  | cons e rs =>
    refine ⟨collapseRuns (e :: rs), ?_⟩
    simp [collapseRuns, hd]

theorem collapseRuns_chain (l : List Char) :
    (collapseRuns l).Chain' NoAdjHyphen := by
  induction l with
  | nil => simp [collapseRuns]
  | cons c tail ih =>
    cases tail with
    | nil =>
      by_cases hc : isSlugKeep c = true <;> simp [collapseRuns, hc]
    | cons d rest =>
      by_cases hc : isSlugKeep c = true
      · rw [show collapseRuns (c :: d :: rest)
            = c :: collapseRuns (d :: rest) by simp [collapseRuns, hc]]
        refine List.chain'_cons'.mpr ⟨?_, ih⟩
        intro y _
        exact fun hy => keep_ne_hyphen hc hy.1
      · by_cases hd : isSlugKeep d = true
        · rw [show collapseRuns (c :: d :: rest)
              = '-' :: collapseRuns (d :: rest) by simp [collapseRuns, hc, hd]]
          refine List.chain'_cons'.mpr ⟨?_, ih⟩
          intro y hy
          obtain ⟨t, ht⟩ := collapseRuns_head_keep d rest hd
          rw [ht] at hy
          simp at hy
          subst hy
          exact fun h2 => keep_ne_hyphen hd h2.2
        · rw [show collapseRuns (c :: d :: rest)
              = collapseRuns (d :: rest) by simp [collapseRuns, hc, hd]]
          exact ih

theorem dropLeadingHyphen_eq_dropWhile (l : List Char)
    (h : l.Chain' NoAdjHyphen) :
    dropLeadingHyphen l = l.dropWhile (fun c => c = '-') := by
  cases l with
  | nil => rfl
  | cons c rest =>
    by_cases hc : c = '-'
    · subst hc
      rw [show dropLeadingHyphen ('-' :: rest) = rest by simp [dropLeadingHyphen]]
      rw [List.dropWhile_cons_of_pos (by simp)]
      cases rest with
      | nil => rfl
      | cons d rs =>
        have hd : d ≠ '-' := by
          have := List.chain'_cons'.mp h
          have h2 := this.1 d (by simp)
          intro he
          exact h2 ⟨rfl, he⟩
        rw [List.dropWhile_cons_of_neg (by simpa using hd)]
    · rw [show dropLeadingHyphen (c :: rest) = c :: rest by
        simp [dropLeadingHyphen, hc]]
      rw [List.dropWhile_cons_of_neg (by simpa using hc)]

theorem chain_dropLeadingHyphen {l : List Char}
    (h : l.Chain' NoAdjHyphen) :
    (dropLeadingHyphen l).Chain' NoAdjHyphen := by
  cases l with
  | nil => exact h
  | cons c rest =>
    by_cases hc : c = '-'
    · rw [show dropLeadingHyphen (c :: rest) = rest by simp [dropLeadingHyphen, hc]]
      exact (List.chain'_cons'.mp h).2
    · rwa [show dropLeadingHyphen (c :: rest) = c :: rest by
        simp [dropLeadingHyphen, hc]]

theorem chain_reverse {l : List Char} (h : l.Chain' NoAdjHyphen) :
    l.reverse.Chain' NoAdjHyphen := by
  rw [List.chain'_reverse]
  exact List.Chain'.imp (fun a b hab h2 => hab ⟨h2.2, h2.1⟩) h

theorem trimJs_eq_trimAll (l : List Char) (h : l.Chain' NoAdjHyphen) :
    trimJs l
      = (((l.dropWhile (fun c => c = '-')).reverse.dropWhile
          (fun c => c = '-'))).reverse := by
  unfold trimJs
  rw [dropLeadingHyphen_eq_dropWhile l h]
  rw [dropLeadingHyphen_eq_dropWhile _
    (chain_reverse (by rw [← dropLeadingHyphen_eq_dropWhile l h]
                       exact chain_dropLeadingHyphen h))]

/-- C5: the deployment slug is the name lowercased, with every maximal run
of non-alphanumerics collapsed to one hyphen and leading/trailing hyphens
trimmed — `"My Cool App!!"` yields `"my-cool-app"` — and when a deployment
with the derived slug already exists, `add_deployment` fails with the
collision error naming the slug and creates nothing. -/
theorem slug_derivation_law :
    (∀ name, slugify name = slugifySpec name)
    ∧ slugify "My Cool App!!" = "my-cool-app"
    ∧ (∀ name (description github_url frontend_url mcp_server_url
          database_type database_provider : Option String) (s : DepStore)
        (d : Deployment), d ∈ s.deployments → d.slug = slugify name →
        add_deployment name description github_url frontend_url mcp_server_url
          database_type database_provider s
          = .error ("Deployment with slug \"" ++ slugify name ++
              "\" already exists")) := by
  refine ⟨?_, by decide, ?_⟩
  · intro name
    unfold slugify slugifySpec
    rw [trimJs_eq_trimAll _ (collapseRuns_chain _)]
  · intro name description github_url frontend_url mcp_server_url
      database_type database_provider s d hd hslug
    have hfind : (s.deployments.find?
        (fun d' => d'.slug = slugify name)).isSome = true := by
      rw [List.find?_isSome]
      exact ⟨d, hd, by simp [hslug]⟩
    obtain ⟨x, hx⟩ := Option.isSome_iff_exists.mp hfind
    rw [add_deployment.eq_def]
    simp only [hx]

/-- C5 witness: a second deployment whose name normalizes to the existing
slug `my-cool-app` is rejected with the collision error. -/
theorem slug_derivation_law_witness :
    add_deployment "My Cool App!!" none none none none none none
      { nextId := 9,
        deployments := [{ id := 1, name := "My Cool App", slug := "my-cool-app" }],
        components := newComponents 1 2 none none none none none }
      = .error ("Deployment with slug \"" ++ slugify "My Cool App!!" ++
          "\" already exists") :=
  slug_derivation_law.2.2 "My Cool App!!" none none none none none none
    { nextId := 9,
      deployments := [{ id := 1, name := "My Cool App", slug := "my-cool-app" }],
      components := newComponents 1 2 none none none none none }
    { id := 1, name := "My Cool App", slug := "my-cool-app" }
    (by decide) (by decide)

/-! ## C9: every deployment has exactly the four fixed components -/

theorem filter_map_types (f : DeploymentComponent → DeploymentComponent)
    (h1 : ∀ c, (f c).deployment_id = c.deployment_id)
    (h2 : ∀ c, (f c).component_type = c.component_type) :
    ∀ (l : List DeploymentComponent) (x : Nat),
      ((l.map f).filter (fun c => c.deployment_id = x)).map
          (fun c => c.component_type)
        = (l.filter (fun c => c.deployment_id = x)).map
          (fun c => c.component_type) := by
  intro l x
  induction l with
  | nil => rfl
  | cons c rest ih =>
    by_cases hc : c.deployment_id = x
    · rw [List.map_cons, List.filter_cons_of_pos (by simp [h1, hc]),
        List.filter_cons_of_pos (by simp [hc]), List.map_cons, List.map_cons,
        h2, ih]
    · rw [List.map_cons, List.filter_cons_of_neg (by simp [h1, hc]),
        List.filter_cons_of_neg (by simp [hc]), ih]

theorem applyDeploymentUpdate_id (now : String)
    (name description status : Option String) (d : Deployment) :
    (applyDeploymentUpdate now name description status d).id = d.id := by
  rcases name with _ | n <;> rcases description with _ | de <;>
    rcases status with _ | st <;>
    simp only [applyDeploymentUpdate] <;> split_ifs <;> rfl

theorem applyComponentUpdate_fields (now : String) (status : Option String)
    (url : Option (Option String))
    (config : Option (List (String × Option String)))
    (c : DeploymentComponent) :
    (applyComponentUpdate now status url config c).deployment_id
        = c.deployment_id
    ∧ (applyComponentUpdate now status url config c).component_type
        = c.component_type := by
  rcases status with _ | st <;> rcases url with _ | u <;>
    rcases config with _ | cfg <;>
    simp only [applyComponentUpdate] <;> (try split_ifs) <;>
    first | exact ⟨rfl, rfl⟩ | trivial | exact ⟨trivial, trivial⟩ | rfl

theorem newComponents_types (depId baseId : Nat)
    (g f m dt dp : Option String) :
    (newComponents depId baseId g f m dt dp).map (fun c => c.component_type)
      = fixedComponentTypes := by
  rcases hg : isTruthy g <;> rcases hf : isTruthy f <;>
    rcases hm : isTruthy m <;> rcases hdt : isTruthy dt <;>
    simp [newComponents, fixedComponentTypes, hg, hf, hm, hdt]

theorem newComponents_depIds (depId baseId : Nat)
    (g f m dt dp : Option String) :
    ∀ c ∈ newComponents depId baseId g f m dt dp,
      c.deployment_id = depId := by
  intro c hc
  simp only [newComponents, List.mem_cons, List.mem_singleton] at hc
  rcases hc with h | h | h | h | h <;> first | (subst h; rfl) | cases h

theorem filter_all_eq_depId {l : List DeploymentComponent} {depId : Nat}
    (h : ∀ c ∈ l, c.deployment_id = depId) :
    ∀ x : Nat, l.filter (fun c => c.deployment_id = x)
      = (if x = depId then l else []) := by
  intro x
  by_cases hx : x = depId
  · subst hx
    simp only [if_pos rfl]
    exact List.filter_eq_self.mpr (fun c hc => by simp [h c hc])
  · rw [if_neg hx]
    exact List.filter_eq_nil_iff.mpr (fun c hc => by
      simp only [h c hc, decide_eq_true_eq]
      exact fun he => hx he.symm)

theorem componentTypesOf_append_new (s : DepStore) (depId baseId : Nat)
    (g f m dt dp : Option String)
    (hold : ∀ c ∈ s.components, c.deployment_id < depId) :
    ∀ x : Nat,
      ((s.components ++ newComponents depId baseId g f m dt dp).filter
        (fun c => c.deployment_id = x)).map (fun c => c.component_type)
      = (if x = depId then fixedComponentTypes
         else componentTypesOf s x) := by
  intro x
  rw [List.filter_append, List.map_append,
    filter_all_eq_depId (newComponents_depIds depId baseId g f m dt dp) x]
  by_cases hx : x = depId
  · have hnil : s.components.filter (fun c => c.deployment_id = x) = [] :=
      List.filter_eq_nil_iff.mpr (fun c hc => by
        have hlt := hold c hc
        simp only [decide_eq_true_eq]
        omega)
    simp [hx, hnil, newComponents_types]
    intro a ha
    have := hold a ha
    omega
  · simp [hx, componentTypesOf]

theorem applyPersist_fields (compId : Nat) (p : PersistFields)
    (c : DeploymentComponent) :
    ((if c.id = compId then
        { c with status := p.status, last_checked := some p.last_checked,
                 error_message := p.error_message,
                 updated_at := some p.updated_at }
      else c) : DeploymentComponent).deployment_id = c.deployment_id
    ∧ ((if c.id = compId then
        { c with status := p.status, last_checked := some p.last_checked,
                 error_message := p.error_message,
                 updated_at := some p.updated_at }
      else c) : DeploymentComponent).component_type = c.component_type := by
  split_ifs <;> exact ⟨rfl, rfl⟩

theorem healthFold_state (env : ProbeEnv) (now : String) :
    ∀ (cs : List DeploymentComponent) (s : DepStore)
      (res : List (String × HealthEntry)),
      ((healthFold env now cs s res).1.deployments = s.deployments)
      ∧ ((healthFold env now cs s res).1.nextId = s.nextId)
      ∧ (∀ x, componentTypesOf (healthFold env now cs s res).1 x
          = componentTypesOf s x)
      ∧ (∀ c ∈ (healthFold env now cs s res).1.components,
          ∃ c0 ∈ s.components, c.deployment_id = c0.deployment_id) := by
  intro cs
  induction cs with
  | nil =>
    intro s res
    exact ⟨rfl, rfl, fun _ => rfl, fun c hc => ⟨c, hc, rfl⟩⟩
  | cons c0 rest ih =>
    intro s res
    rw [healthFold.eq_def]
    cases hchk : (checkComponent env now c0).persist with
    | none =>
      simpa [hchk] using ih s (upsert res c0.component_type
        (checkComponent env now c0).entry)
    | some p =>
      simp only [hchk]
      set s1 : DepStore :=
        { s with components := applyPersist c0.id p s.components } with hs1
      have h := ih s1 (upsert res c0.component_type
        (checkComponent env now c0).entry)
      refine ⟨h.1, h.2.1, ?_, ?_⟩
      · intro x
        rw [h.2.2.1 x]
        unfold componentTypesOf
        rw [hs1]
        exact filter_map_types _
          (fun c => (applyPersist_fields c0.id p c).1)
          (fun c => (applyPersist_fields c0.id p c).2)
          s.components x
      · intro c hc
        obtain ⟨c1, hc1, he⟩ := h.2.2.2 c hc
        rw [hs1] at hc1
        simp only [applyPersist, List.mem_map] at hc1
        obtain ⟨c2, hc2, he2⟩ := hc1
        refine ⟨c2, hc2, ?_⟩
        rw [he, ← he2]
        exact (applyPersist_fields c0.id p c2).1

theorem update_deployment_state (now : String) (deployment_id : Nat)
    (name description status : Option String) (s s' : DepStore)
    (d : Deployment)
    (heq : update_deployment now deployment_id name description status s
      = .ok (s', d)) :
    s' = { s with deployments := s.deployments.map (fun x =>
      if x.id = deployment_id then
        applyDeploymentUpdate now name description status x else x) } := by
  simp only [update_deployment] at heq
  revert heq
  cases ((s.deployments.filter (fun x => x.id = deployment_id)).map (fun x =>
      if x.id = deployment_id then
        applyDeploymentUpdate now name description status x else x)).head? with
  | none => intro h; cases h
  | some d0 => intro h; cases h; rfl

theorem update_deployment_component_state (now : String)
    (deployment_id : Nat) (component : String) (status : Option String)
    (url : Option (Option String))
    (config : Option (List (String × Option String))) (s s' : DepStore)
    (c : DeploymentComponent)
    (heq : update_deployment_component now deployment_id component status url
      config s = .ok (s', c)) :
    s' = { s with components := s.components.map (fun x =>
      if x.deployment_id = deployment_id && x.component_type = component then
        applyComponentUpdate now status url config x else x) } := by
  simp only [update_deployment_component] at heq
  revert heq
  cases ((s.components.filter (fun x =>
      x.deployment_id = deployment_id && x.component_type = component)).map
      (fun x =>
        if x.deployment_id = deployment_id && x.component_type = component then
          applyComponentUpdate now status url config x else x)).head? with
  | none => intro h; cases h
  | some c0 => intro h; cases h; rfl

theorem add_deployment_state (name : String)
    (description github_url frontend_url mcp_server_url database_type
      database_provider : Option String) (s s' : DepStore) (dep : Deployment)
    (heq : add_deployment name description github_url frontend_url
      mcp_server_url database_type database_provider s = .ok (s', dep)) :
    dep = { id := s.nextId, name := name, slug := slugify name,
            description := description, status := "active" }
    ∧ s' = { nextId := s.nextId + 5,
             deployments := s.deployments ++ [dep],
             components := s.components ++ newComponents s.nextId (s.nextId + 1)
               github_url frontend_url mcp_server_url database_type
               database_provider } := by
  simp only [add_deployment] at heq
  revert heq
  cases (s.deployments.find? (fun d => d.slug = slugify name)) with
  | some x => intro h; cases h
  | none => intro h; cases h; exact ⟨rfl, rfl⟩

theorem depWF_empty : DepWF {} := by
  constructor
  · intro d hd; cases hd
  · intro c hc; cases hc

theorem depWF_add {s s' : DepStore} {dep : Deployment} {name : String}
    {description github_url frontend_url mcp_server_url database_type
      database_provider : Option String}
    (hwf : DepWF s)
    (heq : add_deployment name description github_url frontend_url
      mcp_server_url database_type database_provider s = .ok (s', dep)) :
    DepWF s' := by
  obtain ⟨hdep, hs'⟩ := add_deployment_state name description github_url
    frontend_url mcp_server_url database_type database_provider s s' dep heq
  subst hs'
  have htypes := componentTypesOf_append_new s s.nextId (s.nextId + 1)
    github_url frontend_url mcp_server_url database_type database_provider
    (fun c hc => hwf.2 c hc)
  constructor
  · intro d hd
    rcases List.mem_append.mp hd with h | h
    · have hold := hwf.1 d h
      have hlt := hold.1
      refine ⟨by dsimp only; omega, ?_⟩
      unfold componentTypesOf
      dsimp only
      rw [htypes d.id, if_neg (by omega)]
      exact hold.2
    · rw [List.mem_singleton.mp h, hdep]
      refine ⟨by dsimp only; omega, ?_⟩
      unfold componentTypesOf
      dsimp only
      rw [htypes s.nextId, if_pos rfl]
  · intro c hc
    rcases List.mem_append.mp hc with h | h
    · have := hwf.2 c h; dsimp only; omega
    · have := newComponents_depIds s.nextId (s.nextId + 1) github_url
        frontend_url mcp_server_url database_type database_provider c h
      dsimp only; omega

theorem depWF_upd {s s' : DepStore} {d : Deployment} {now : String}
    {deployment_id : Nat} {name description status : Option String}
    (hwf : DepWF s)
    (heq : update_deployment now deployment_id name description status s
      = .ok (s', d)) : DepWF s' := by
  have hs' := update_deployment_state now deployment_id name description
    status s s' d heq
  subst hs'
  constructor
  · intro d' hd'
    obtain ⟨d0, hd0, he⟩ := List.mem_map.mp hd'
    have hid : d'.id = d0.id := by
      rw [← he]
      by_cases h0 : d0.id = deployment_id
      · simp [h0, applyDeploymentUpdate_id]
      · simp [h0]
    have hold := hwf.1 d0 hd0
    exact ⟨by rw [hid]; exact hold.1, by rw [hid]; exact hold.2⟩
  · exact hwf.2

theorem depWF_updComp {s s' : DepStore} {c : DeploymentComponent}
    {now component : String} {deployment_id : Nat} {status : Option String}
    {url : Option (Option String)}
    {config : Option (List (String × Option String))}
    (hwf : DepWF s)
    (heq : update_deployment_component now deployment_id component status url
      config s = .ok (s', c)) : DepWF s' := by
  have hs' := update_deployment_component_state now deployment_id component
    status url config s s' c heq
  subst hs'
  have hpres : ∀ x : DeploymentComponent,
      ((if x.deployment_id = deployment_id && x.component_type = component then
          applyComponentUpdate now status url config x else x) :
        DeploymentComponent).deployment_id = x.deployment_id
      ∧ ((if x.deployment_id = deployment_id && x.component_type = component
          then applyComponentUpdate now status url config x else x) :
        DeploymentComponent).component_type = x.component_type := by
    intro x
    split_ifs with h
    · exact applyComponentUpdate_fields now status url config x
    · exact ⟨rfl, rfl⟩
  constructor
  · intro d hd
    have hold := hwf.1 d hd
    refine ⟨hold.1, ?_⟩
    unfold componentTypesOf
    rw [filter_map_types _ (fun x => (hpres x).1) (fun x => (hpres x).2)
      s.components d.id]
    exact hold.2
  · intro c' hc'
    obtain ⟨c0, hc0, he⟩ := List.mem_map.mp hc'
    have := hwf.2 c0 hc0
    rw [← he, (hpres c0).1]
    exact this

theorem depWF_del {s : DepStore} {deployment_id : Nat} (hwf : DepWF s) :
    DepWF (delete_deployment deployment_id s).1 := by
  constructor
  · intro d hd
    simp only [delete_deployment, List.mem_filter] at hd
    have hold := hwf.1 d hd.1
    have hne : d.id ≠ deployment_id := by simpa using hd.2
    refine ⟨hold.1, ?_⟩
    unfold componentTypesOf at hold ⊢
    simp only [delete_deployment]
    rw [List.filter_filter]
    rw [show s.components.filter (fun c =>
        decide (c.deployment_id = d.id) && decide (c.deployment_id ≠ deployment_id))
      = s.components.filter (fun c => c.deployment_id = d.id) from
      List.filter_congr (fun c _ => by
        by_cases hc : c.deployment_id = d.id
        · simp [hc, hne]
        · simp [hc])]
    exact hold.2
  · intro c hc
    simp only [delete_deployment, List.mem_filter] at hc
    exact hwf.2 c hc.1

theorem depWF_health {s : DepStore} {env : ProbeEnv} {now : String}
    {deployment_id : Nat} (hwf : DepWF s) :
    DepWF (check_deployment_health env now deployment_id s).1 := by
  rcases hfold : healthFold env now
    (s.components.filter (fun c => c.deployment_id = deployment_id)) s []
    with ⟨s2, res2⟩
  have hstate := healthFold_state env now
    (s.components.filter (fun c => c.deployment_id = deployment_id)) s []
  rw [hfold] at hstate
  have hch : (check_deployment_health env now deployment_id s).1 = s2 := by
    simp [check_deployment_health, hfold]
  rw [hch]
  constructor
  · intro d hd
    rw [hstate.1] at hd
    have hold := hwf.1 d hd
    refine ⟨by rw [hstate.2.1]; exact hold.1, ?_⟩
    rw [hstate.2.2.1 d.id]
    exact hold.2
  · intro c hc
    obtain ⟨c0, hc0, he⟩ := hstate.2.2.2 c hc
    rw [hstate.2.1, he]
    exact hwf.2 c0 hc0

theorem depWF_reachable {s : DepStore} (h : Reachable s) : DepWF s := by
  induction h with
  | init => exact depWF_empty
  | add _ heq ih => exact depWF_add ih heq
  | upd _ heq ih => exact depWF_upd ih heq
  | updComp _ heq ih => exact depWF_updComp ih heq
  | del _ ih => exact depWF_del ih
  | health _ ih => exact depWF_health ih

/-- C9: in every state reachable by the deployment operations from the
empty store, every deployment has exactly the four fixed components — one
each of github, frontend, mcp_server and database, created together by
`add_deployment`; `delete_deployment` removes a deployment together with
its components (the cascade), so no partial component set ever survives. -/
theorem deployment_four_components {s : DepStore} (h : Reachable s) :
    ∀ d ∈ s.deployments, componentTypesOf s d.id = fixedComponentTypes :=
  fun d hd => ((depWF_reachable h).1 d hd).2

/-- C9 witness: the state after one `add_deployment` on the empty store. -/
theorem deployment_four_components_witness :
    componentTypesOf
      { nextId := 5,
        deployments := [{ id := 0, name := "My App", slug := "my-app",
                          description := none, status := "active" }],
        components := newComponents 0 1 none none none none none } 0
      = fixedComponentTypes :=
  deployment_four_components
    (Reachable.add Reachable.init
      (show add_deployment "My App" none none none none none none {}
          = .ok ({ nextId := 5,
                   deployments := [{ id := 0, name := "My App",
                                     slug := "my-app", description := none,
                                     status := "active" }],
                   components := newComponents 0 1 none none none none none },
                 { id := 0, name := "My App", slug := "my-app",
                   description := none, status := "active" }) from rfl))
    { id := 0, name := "My App", slug := "my-app",
      description := none, status := "active" }
    (by decide)
